import Mathlib

/-!
Verification of the replication slot manager
(src/gausskernel/storage/replication/slot.cpp).

The definitions below are a shallow embedding of the slot table, its
lifecycle operations, the on-disk codec and the startup restorer, translated
from the source.  Machine integers are modelled as Nat with explicit moduli
where overflow matters; file-system primitives (open/write/fsync/rename) are
modelled as succeeding, since their failure paths are external to the data
they carry.  Parts of the repository that are referenced but not part of the
given source (the slot header slot.h, the transaction-id comparator of
transam.h, the CRC-32C primitive) are modelled from the specification and
are marked as such in their doc comments.
-/

/-! ## Basic types and constants -/

/-- Transaction identifier (uint64 in this code base). -/
abbrev TransactionId := Nat

/-- WAL position (uint64). -/
abbrev XLogRecPtr := Nat

/-- Database object identifier (uint32). -/
abbrev Oid := Nat

def InvalidTransactionId : TransactionId := 0

def InvalidXLogRecPtr : XLogRecPtr := 0

def InvalidOid : Oid := 0

/-- Maximum slot-name buffer size (NAMEDATALEN); names of length
NAMEDATALEN or more are rejected. -/
def NAMEDATALEN : Nat := 64

/-- 2 to the power 64, the modulus of uint64 arithmetic (written as a
literal so omega can use it). -/
def XID_MOD : Nat := 18446744073709551616

/-- 2 to the power 63, the threshold at which a signed 64-bit difference
turns negative. -/
def XID_HALF : Nat := 9223372036854775808

/-- A transaction id is valid when it differs from InvalidTransactionId. -/
def TransactionIdIsValid (x : TransactionId) : Prop := x ≠ InvalidTransactionId

/-- Modelled from the spec: the wrap-aware transaction-id precedence
relation used by the xmin aggregation (the comparator lives in
access/transam.h, which is not part of the given source).  id1 precedes id2
when the signed 64-bit difference id1 - id2 is negative. -/
def TransactionIdPrecedes (a b : TransactionId) : Bool :=
  decide (XID_HALF ≤ (a % XID_MOD + XID_MOD - b % XID_MOD) % XID_MOD)

/-- The position of x on the xid circle as seen from base B; two xids within
a half-circle window around B compare by this key. -/
def xidKey (B x : Nat) : Nat := (x + XID_MOD - B) % XID_MOD

/-- x lies in the half-circle window starting at base B. -/
def XidInWindow (B x : Nat) : Prop := x < XID_MOD ∧ xidKey B x < XID_HALF

/-! ## Error taxonomy (section 7 of the spec, matching the ereport calls) -/

inductive ErrCode where
  | INVALID_NAME
  | NAME_TOO_LONG
  | DUPLICATE
  | NOT_FOUND
  | IN_USE
  | CAPACITY
  | NOT_CONFIGURED
  | IO_FAILURE
deriving DecidableEq, Repr

/-! ## Name validation (ReplicationSlotValidateName) -/

/-- One character of a slot name is legal: [a-z0-9_?<!\-.], as in the
character loop of ReplicationSlotValidateName. -/
def validNameChar (c : Nat) : Bool :=
  (97 ≤ c && c ≤ 122) || (48 ≤ c && c ≤ 57) || c == 95 || c == 63 ||
    c == 60 || c == 33 || c == 45 || c == 46

/-- ReplicationSlotValidateName at elevel ERROR: none means the name is
valid, some e means an error of kind e is raised.  A name is a byte list;
Option.none models a NULL pointer. -/
def ReplicationSlotValidateName : Option (List Nat) → Option ErrCode
  | none => some ErrCode.INVALID_NAME
  | some l =>
    if l.length = 0 then some ErrCode.INVALID_NAME
    else if NAMEDATALEN ≤ l.length then some ErrCode.NAME_TOO_LONG
    else if l.all validNameChar then none
    else some ErrCode.INVALID_NAME

/-! ## Persistent slot data and the in-memory descriptor -/

inductive ReplicationSlotPersistency where
  | RS_PERSISTENT
  | RS_EPHEMERAL
deriving DecidableEq, Repr

/-- The dynamic region of the on-disk record: the subset of slot state that
survives restart.  Field list from the spec's data model (the struct itself
is declared in replication/slot.h, not part of the given source). -/
structure ReplicationSlotPersistentData where
  name : List Nat
  database : Oid
  persistency : ReplicationSlotPersistency
  xmin : TransactionId
  catalog_xmin : TransactionId
  restart_lsn : XLogRecPtr
  isDummyStandby : Bool
deriving DecidableEq, Repr

/-- In-memory slot descriptor (ReplicationSlot).  The spinlock and the
io_in_progress_lock are concurrency primitives with no data content and are
not represented. -/
structure ReplicationSlot where
  in_use : Bool
  active : Bool
  data : ReplicationSlotPersistentData
  effective_xmin : TransactionId
  effective_catalog_xmin : TransactionId
  candidate_catalog_xmin : TransactionId
  candidate_xmin_lsn : XLogRecPtr
  candidate_restart_lsn : XLogRecPtr
  candidate_restart_valid : XLogRecPtr
  dirty : Bool
  just_dirtied : Bool
deriving DecidableEq, Repr

/-- A zero-initialized slot entry, as produced by the memset in
ReplicationSlotsShmemInit. -/
def defaultSlot : ReplicationSlot :=
  { in_use := false, active := false,
    data := { name := [], database := 0, persistency := .RS_PERSISTENT,
              xmin := 0, catalog_xmin := 0, restart_lsn := 0,
              isDummyStandby := false },
    effective_xmin := 0, effective_catalog_xmin := 0,
    candidate_catalog_xmin := 0, candidate_xmin_lsn := 0,
    candidate_restart_lsn := 0, candidate_restart_valid := 0,
    dirty := false, just_dirtied := false }

/-! ## On-disk codec (ReplicationSlotOnDisk) -/

/-- Modelled from the spec: little-endian byte serialization, width w. -/
def leBytes : Nat → Nat → List Nat
  | 0, _ => []
  | w + 1, n => (n % 256) :: leBytes w (n / 256)

/-- Modelled from the spec: the NAMEDATALEN-byte name buffer,
zero-padded. -/
def serializeName (name : List Nat) : List Nat :=
  name.take NAMEDATALEN ++
    List.replicate (NAMEDATALEN - (name.take NAMEDATALEN).length) 0

/-- Modelled from the spec: numeric code of the persistency enum in the
on-disk record. -/
def persistencyCode : ReplicationSlotPersistency → Nat
  | .RS_PERSISTENT => 0
  | .RS_EPHEMERAL => 1

/-- Modelled from the spec: the bytes of the dynamic region, in the field
order of the spec's data model, all integers little-endian. -/
def serializeSlotData (d : ReplicationSlotPersistentData) : List Nat :=
  serializeName d.name ++ leBytes 4 d.database ++
    leBytes 4 (persistencyCode d.persistency) ++ leBytes 8 d.xmin ++
    leBytes 8 d.catalog_xmin ++ leBytes 8 d.restart_lsn ++
    [if d.isDummyStandby then 1 else 0]

/-- Size of the constant region (magic, checksum, version, length). -/
def ReplicationSlotOnDiskConstantSize : Nat := 16

/-- Size of the dynamic region: 64 name bytes + 4 + 4 + 8 + 8 + 8 + 1. -/
def ReplicationSlotOnDiskDynamicSize : Nat := 97

/-- Magic number of a slot state file (SLOT_MAGIC, declared in slot.h which
is not part of the given source; the value is the usual one, its exact
value is irrelevant to every claim). -/
def SLOT_MAGIC : Nat := 0x1051CA1

/-- One step of the reflected CRC-32C bit loop (reversed polynomial
0x82F63B78 for the Castagnoli polynomial 0x1EDC6F41). -/
def crc32cStepBit (c : Nat) : Nat :=
  if c % 2 = 1 then (c / 2) ^^^ 0x82F63B78 else c / 2

/-- Modelled from the spec: CRC-32C over one byte. -/
def crc32cByte (crc b : Nat) : Nat :=
  crc32cStepBit^[8] (crc ^^^ (b % 256))

/-- Modelled from the spec: CRC-32C of a byte string, initial value
0xFFFFFFFF, final XOR 0xFFFFFFFF. -/
def crc32c (bytes : List Nat) : Nat :=
  (bytes.foldl crc32cByte 0xFFFFFFFF) ^^^ 0xFFFFFFFF

/-- The fixed-layout on-disk record: constant region followed by the
dynamic region. -/
structure ReplicationSlotOnDisk where
  magic : Nat
  checksum : Nat
  version : Nat
  length : Nat
  slotdata : ReplicationSlotPersistentData
deriving DecidableEq, Repr

/-- The record SaveSlotToPath builds before writing: magic, version 1,
length = dynamic-region size, the slot's persistent data copied under the
spinlock, and the CRC-32C finalized over the dynamic region only. -/
def buildOnDiskRecord (d : ReplicationSlotPersistentData) :
    ReplicationSlotOnDisk :=
  { magic := SLOT_MAGIC,
    checksum := crc32c (serializeSlotData d),
    version := 1,
    length := ReplicationSlotOnDiskDynamicSize,
    slotdata := d }

/-- The verification RestoreSlotFromDisk performs on a record it has read:
the CRC recomputed over the dynamic region must match, then the magic, then
the length (the source checks them in this order; all three must hold). -/
def checkRecord (cp : ReplicationSlotOnDisk) : Bool :=
  (crc32c (serializeSlotData cp.slotdata) == cp.checksum) &&
    (cp.magic == SLOT_MAGIC) &&
    (cp.length == ReplicationSlotOnDiskDynamicSize)

/-! ## Aggregation queries -/

/-- One reduction step of ReplicationSlotsComputeRequiredXmin: take e when
it is valid and either nothing was aggregated yet or e precedes the current
aggregate in the wrap-aware order. -/
def xminAggStep (agg e : TransactionId) : TransactionId :=
  if e ≠ InvalidTransactionId ∧
      (agg = InvalidTransactionId ∨ TransactionIdPrecedes e agg = true) then
    e
  else agg

/-- ReplicationSlotsComputeRequiredXmin: the pair (oldest effective_xmin,
oldest effective_catalog_xmin) over the in_use slots, in the wrap-aware
order, that the source publishes to the process array via
ProcArraySetReplicationSlotXmin. -/
def ReplicationSlotsComputeRequiredXmin (slots : List ReplicationSlot) :
    TransactionId × TransactionId :=
  slots.foldl
    (fun agg s =>
      if s.in_use then
        (xminAggStep agg.1 s.effective_xmin,
          xminAggStep agg.2 s.effective_catalog_xmin)
      else agg)
    (InvalidTransactionId, InvalidTransactionId)

/-- effective_xmin of the in_use slots, in table order. -/
def inUseEffectiveXmins (slots : List ReplicationSlot) : List TransactionId :=
  (slots.filter fun s => s.in_use).map fun s => s.effective_xmin

/-- effective_catalog_xmin of the in_use slots, in table order. -/
def inUseEffectiveCatalogXmins (slots : List ReplicationSlot) :
    List TransactionId :=
  (slots.filter fun s => s.in_use).map fun s => s.effective_catalog_xmin

/-- m is the minimum of the list l under the wrap-aware precedence order,
InvalidTransactionId when l is empty (the claim's notion of published
aggregate; l is meant to hold the valid values only). -/
def IsWrapMinOf (m : TransactionId) (l : List TransactionId) : Prop :=
  (l = [] → m = InvalidTransactionId) ∧
    (l ≠ [] → m ∈ l ∧ ∀ e ∈ l, TransactionIdPrecedes e m = false)

/-- Server role, as read by load_server_mode; only "primary or pending"
matters to the LSN aggregation. -/
inductive ServerMode where
  | PRIMARY_MODE
  | PENDING_MODE
  | STANDBY_MODE
deriving DecidableEq, Repr

/-- Out-structure of ReplicationSlotsComputeRequiredLSN. -/
structure ReplicationSlotState where
  min_required : XLogRecPtr
  max_required : XLogRecPtr
  exist_in_use : Bool
deriving DecidableEq, Repr

/-- Loop body of ReplicationSlotsComputeRequiredLSN: skip physical slots
when the server is neither primary nor pending, skip unused entries,
otherwise note an in_use slot and reduce min (invalid-neutral on the left)
and max of restart_lsn. -/
def requiredLSNStep (serverMode : ServerMode)
    (acc : XLogRecPtr × XLogRecPtr × Bool) (s : ReplicationSlot) :
    XLogRecPtr × XLogRecPtr × Bool :=
  if (serverMode ≠ ServerMode.PRIMARY_MODE ∧
        serverMode ≠ ServerMode.PENDING_MODE) ∧
      s.data.database = InvalidOid then
    acc
  else if s.in_use = false then
    acc
  else
    let r := s.data.restart_lsn
    let mn := if r ≠ InvalidXLogRecPtr ∧ (acc.1 = InvalidXLogRecPtr ∨ r < acc.1)
      then r else acc.1
    let mx := if acc.2.1 < r then r else acc.2.1
    (mn, mx, true)

/-- ReplicationSlotsComputeRequiredLSN.  The slot table has exactly
max_replication_slots entries, so the guard max_replication_slots == 0 of
the source is the guard slots.length = 0 here; when it fires the function
returns at once, publishing nothing and leaving the out-structure with
whatever it already held.  The first component is the (min, max) pair
published to the xlog module (none when nothing was published); the second
is the out-structure after the call. -/
def ReplicationSlotsComputeRequiredLSN (serverMode : ServerMode)
    (slots : List ReplicationSlot) (stateOut : Option ReplicationSlotState) :
    Option (XLogRecPtr × XLogRecPtr) × Option ReplicationSlotState :=
  if slots.length = 0 then
    (none, stateOut)
  else
    let t := slots.foldl (requiredLSNStep serverMode)
      (InvalidXLogRecPtr, InvalidXLogRecPtr, false)
    (some (t.1, t.2.1),
      match stateOut with
      | none => none
      | some _ => some { min_required := t.1, max_required := t.2.1,
                         exist_in_use := t.2.2 })

/-- Loop body of ReplicationSlotsComputeLogicalRestartLSN: only in_use
logical slots are considered; the accumulator is replaced whenever it is
still invalid or the slot's restart_lsn is numerically smaller (note the
source does not test the slot's restart_lsn for validity). -/
def logicalRestartStep (result : XLogRecPtr) (s : ReplicationSlot) :
    XLogRecPtr :=
  if s.in_use = true ∧ s.data.database ≠ InvalidOid then
    if result = InvalidXLogRecPtr ∨ s.data.restart_lsn < result then
      s.data.restart_lsn
    else result
  else result

/-- ReplicationSlotsComputeLogicalRestartLSN (the max_replication_slots <= 0
early return coincides with the fold over the empty table). -/
def ReplicationSlotsComputeLogicalRestartLSN (slots : List ReplicationSlot) :
    XLogRecPtr :=
  slots.foldl logicalRestartStep InvalidXLogRecPtr

/-- Written from the words of the spec, for comparison with the code:
the minimum restart_lsn across in_use logical slots, INVALID if none exist,
an INVALID restart_lsn being neutral on the left of min. -/
def specLogicalRestartLSN (slots : List ReplicationSlot) : XLogRecPtr :=
  let valids :=
    (((slots.filter fun s => s.in_use).filter
        fun s => s.data.database != InvalidOid).map
      fun s => s.data.restart_lsn).filter fun r => r != InvalidXLogRecPtr
  match valids with
  | [] => InvalidXLogRecPtr
  | v :: rest => rest.foldl Nat.min v

/-! ## Startup restorer (RestoreSlotFromDisk / RecoverReplSlotFile) -/

/-- Index of the first unused entry, as found by the allocation scans. -/
def firstFreeIndex : List ReplicationSlot → Option Nat
  | [] => none
  | s :: rest =>
    if s.in_use = false then some 0 else (firstFreeIndex rest).map (· + 1)

/-- The table entry RestoreSlotFromDisk builds from a verified record: the
persistent data copied in whole, effective xmins initialized from the
persistent ones, candidate fields cleared, in_use set, active clear. -/
def installRestoredSlot (cp : ReplicationSlotOnDisk) (slot : ReplicationSlot) :
    ReplicationSlot :=
  { slot with
    data := cp.slotdata,
    effective_xmin := cp.slotdata.xmin,
    effective_catalog_xmin := cp.slotdata.catalog_xmin,
    candidate_catalog_xmin := InvalidTransactionId,
    candidate_xmin_lsn := InvalidXLogRecPtr,
    candidate_restart_lsn := InvalidXLogRecPtr,
    candidate_restart_valid := InvalidXLogRecPtr,
    in_use := true,
    active := false }

/-- Observable outcome of restoring one slot directory. -/
structure RestoreResult where
  panicked : Bool
  removedDir : Bool
  warned : Bool
  primaryRewritten : Bool
  slots : List ReplicationSlot
deriving DecidableEq, Repr

/-- Tail of RestoreSlotFromDisk once a record cp has passed verification:
a non-persistent record means a crashed ephemeral slot, whose directory is
removed; otherwise, when the record came from the backup (retry), the
primary state file is first rewritten from it (RecoverReplSlotFile), and
then the record is installed into the first free table entry, panicking
when there is none. -/
def restoreProcessRecord (cp : ReplicationSlotOnDisk) (retry warned : Bool)
    (slots : List ReplicationSlot) : RestoreResult :=
  if cp.slotdata.persistency ≠ ReplicationSlotPersistency.RS_PERSISTENT then
    { panicked := false, removedDir := true, warned := warned,
      primaryRewritten := false, slots := slots }
  else
    match firstFreeIndex slots with
    | some i =>
      { panicked := false, removedDir := false, warned := warned,
        primaryRewritten := retry,
        slots := slots.set i (installRestoredSlot cp (slots.getD i defaultSlot)) }
    | none =>
      { panicked := true, removedDir := false, warned := warned,
        primaryRewritten := retry, slots := slots }

/-- RestoreSlotFromDisk.  tmpPresent says whether a leftover state.tmp was
unlinked, in which case state.backup is unlinked too and ignore_bak is set;
primary and backup are the records read from state and state.backup (reads
and fsyncs are modelled as succeeding; a short read panics before any of
this and carries no data).  On a failed CRC/magic/length check the source
warns and retries from the backup unless ignore_bak, in which case it
panics. -/
def RestoreSlotFromDisk (tmpPresent : Bool)
    (primary backup : ReplicationSlotOnDisk)
    (slots : List ReplicationSlot) : RestoreResult :=
  if checkRecord primary then
    restoreProcessRecord primary false false slots
  else if tmpPresent then
    { panicked := true, removedDir := false, warned := false,
      primaryRewritten := false, slots := slots }
  else if checkRecord backup then
    restoreProcessRecord backup true true slots
  else
    { panicked := true, removedDir := false, warned := true,
      primaryRewritten := false, slots := slots }

/-! ## The dirty / just_dirtied write-back protocol (SaveSlotToPath) -/

/-- The write-back flags of one slot. -/
structure DirtyState where
  dirty : Bool
  just_dirtied : Bool
deriving DecidableEq, Repr

/-- ReplicationSlotMarkDirty: under the spinlock set both flags. -/
def markDirtyFlags (_s : DirtyState) : DirtyState :=
  { dirty := true, just_dirtied := true }

/-- SaveSlotToPath restricted to the write-back flags.  Under the spinlock
read dirty into was_dirty and clear just_dirtied; if not was_dirty return
without writing.  Otherwise perform the write (during which each element of
interleaved stands for one concurrent ReplicationSlotMarkDirty) and finally,
under the spinlock, clear dirty unless just_dirtied was set again.  Returns
the final flags and whether a write was performed. -/
def SaveSlotToPathDirty (s : DirtyState) (interleaved : List Unit) :
    DirtyState × Bool :=
  let was_dirty := s.dirty
  let s1 : DirtyState := { s with just_dirtied := false }
  if was_dirty = false then
    (s1, false)
  else
    let s2 := interleaved.foldl (fun st _ => markDirtyFlags st) s1
    (if s2.just_dirtied then s2 else { s2 with dirty := false }, true)

/-! ## Session environment and lifecycle operations -/

/-- Process-wide state seen by a lifecycle operation: the slot table, the
calling session's current slot (t_thrd.slot_cxt.MyReplicationSlot, as an
index), the slot directories present under pg_replslot, and the aggregates
published to the process array and the xlog module. -/
structure SlotEnv where
  slots : List ReplicationSlot
  mySlot : Option Nat
  diskDirs : List (List Nat)
  published_xmin : TransactionId
  published_catalog_xmin : TransactionId
  published_min_lsn : XLogRecPtr
  published_max_lsn : XLogRecPtr
deriving DecidableEq, Repr

/-- Replace slot entry i by f applied to it. -/
def updateSlotAt (env : SlotEnv) (i : Nat) (f : ReplicationSlot → ReplicationSlot) :
    SlotEnv :=
  { env with slots := env.slots.set i (f (env.slots.getD i defaultSlot)) }

/-- ReplicationSlotsComputeRequiredXmin acting on the environment: publish
the two aggregates to the process array. -/
def envComputeRequiredXmin (env : SlotEnv) : SlotEnv :=
  let p := ReplicationSlotsComputeRequiredXmin env.slots
  { env with published_xmin := p.1, published_catalog_xmin := p.2 }

/-- ReplicationSlotsComputeRequiredLSN(NULL) acting on the environment:
publish min and max to the xlog module (nothing when the table is absent). -/
def envComputeRequiredLSN (serverMode : ServerMode) (env : SlotEnv) : SlotEnv :=
  match (ReplicationSlotsComputeRequiredLSN serverMode env.slots none).1 with
  | none => env
  | some p => { env with published_min_lsn := p.1, published_max_lsn := p.2 }

/-- Result of a lifecycle operation: the state afterwards, the error raised
by ereport(ERROR)/non-local exit if any, and the warnings reported on the
way. -/
structure OpResult where
  env : SlotEnv
  err : Option ErrCode
  warnings : List ErrCode
deriving DecidableEq, Repr

/-- Index of the first in_use entry bearing the given name, as found by the
scans of ReplicationSlotCreate / ReplicationSlotAcquire / ReplicationSlotFind. -/
def findNameIndex (nm : List Nat) : List ReplicationSlot → Option Nat
  | [] => none
  | s :: rest =>
    if s.in_use = true ∧ s.data.name = nm then some 0
    else (findNameIndex nm rest).map (· + 1)

/-- ReplicationSlotFind: validate the name at ERROR, then scan for an
in_use entry with that name under the shared control lock.  The source
performs no writes, so the environment is returned unchanged. -/
def ReplicationSlotFind (name : Option (List Nat)) (env : SlotEnv) :
    Except ErrCode Bool × SlotEnv :=
  match ReplicationSlotValidateName name with
  | some e => (Except.error e, env)
  | none =>
    match findNameIndex (name.getD []) env.slots with
    | some _ => (Except.ok true, env)
    | none => (Except.ok false, env)

/-- ReplicationSlotAcquire: validate, scan for the named in_use slot and
unconditionally mark it active, remembering whether it already was; raise
NOT_FOUND when there is none; when it was active raise IN_USE as an error
for a logical slot or a dummy-standby mismatch (note the active flag stays
set), as a warning otherwise; clear the candidate fields of a logical slot;
record the slot as the session's current slot. -/
def ReplicationSlotAcquire (name : Option (List Nat)) (isDummyStandby : Bool)
    (env : SlotEnv) : OpResult :=
  match ReplicationSlotValidateName name with
  | some e => { env := env, err := some e, warnings := [] }
  | none =>
    match findNameIndex (name.getD []) env.slots with
    | none => { env := env, err := some ErrCode.NOT_FOUND, warnings := [] }
    | some i =>
      let wasActive := (env.slots.getD i defaultSlot).active
      let env1 := updateSlotAt env i fun s => { s with active := true }
      let slot := env1.slots.getD i defaultSlot
      if wasActive = true ∧ (slot.data.database ≠ InvalidOid ∨
          isDummyStandby ≠ slot.data.isDummyStandby) then
        { env := env1, err := some ErrCode.IN_USE, warnings := [] }
      else
        let warns := if wasActive = true then [ErrCode.IN_USE] else []
        let env2 :=
          if slot.data.database ≠ InvalidOid then
            updateSlotAt env1 i fun s =>
              { s with candidate_restart_lsn := InvalidXLogRecPtr,
                       candidate_restart_valid := InvalidXLogRecPtr,
                       candidate_xmin_lsn := InvalidXLogRecPtr,
                       candidate_catalog_xmin := InvalidTransactionId }
          else env1
        { env := { env2 with mySlot := some i }, err := none, warnings := warns }

/-- ReplicationSlotCreate: validate; under the allocation and control locks
scan for a name collision - on collision report DUPLICATE as a warning for
a physical slot and then acquire the existing slot, or raise it as an error
for a logical slot; otherwise take the first free entry (CAPACITY when
none), fill its persistent subset, create the slot directory and save its
state file (CreateSlotOnDisk: force dirty then SaveSlotToPath, modelled
with I/O succeeding so the flags end clean), then set in_use and active and
make it the session's current slot. -/
def ReplicationSlotCreate (name : Option (List Nat))
    (persistency : ReplicationSlotPersistency) (isDummyStandby : Bool)
    (databaseId : Oid) (restart_lsn : XLogRecPtr) (env : SlotEnv) : OpResult :=
  match ReplicationSlotValidateName name with
  | some e => { env := env, err := some e, warnings := [] }
  | none =>
    let nm := name.getD []
    match findNameIndex nm env.slots with
    | some _ =>
      if databaseId = InvalidOid then
        let r := ReplicationSlotAcquire name isDummyStandby env
        { r with warnings := ErrCode.DUPLICATE :: r.warnings }
      else
        { env := env, err := some ErrCode.DUPLICATE, warnings := [] }
    | none =>
      match firstFreeIndex env.slots with
      | none => { env := env, err := some ErrCode.CAPACITY, warnings := [] }
      | some i =>
        let env1 := updateSlotAt env i fun s =>
          { s with
            data := { s.data with
                      persistency := persistency,
                      xmin := InvalidTransactionId,
                      name := nm.take (NAMEDATALEN - 1),
                      database := databaseId,
                      restart_lsn := restart_lsn,
                      isDummyStandby := isDummyStandby },
            effective_xmin := InvalidTransactionId,
            dirty := false, just_dirtied := false }
        let env2 := { env1 with diskDirs := nm.take (NAMEDATALEN - 1) :: env1.diskDirs }
        let env3 := updateSlotAt env2 i fun s => { s with in_use := true, active := true }
        { env := { env3 with mySlot := some i }, err := none, warnings := [] }

/-- ReplicationSlotDropAcquired: detach the slot from the session, rename
its directory away and fsync (modelled as succeeding), clear active and
in_use under the exclusive control lock, recompute the published xmin and
LSN aggregates, and remove the renamed directory. -/
def ReplicationSlotDropAcquired (serverMode : ServerMode) (env : SlotEnv) :
    SlotEnv :=
  match env.mySlot with
  | none => env
  | some i =>
    let nm := (env.slots.getD i defaultSlot).data.name
    let env1 := { env with mySlot := none }
    let env2 := updateSlotAt env1 i fun s => { s with active := false, in_use := false }
    let env3 := envComputeRequiredXmin env2
    let env4 := envComputeRequiredLSN serverMode env3
    { env4 with diskDirs := env4.diskDirs.filter fun n => n ≠ nm }

/-- ReplicationSlotRelease: with no current or an inactive current slot just
clear the reference; an ephemeral slot is dropped; otherwise the slot is
marked inactive.  Then, if the slot was holding the snapshot-building
transient (invalid xmin but valid effective_xmin), clear effective_xmin and
recompute the required xmin; finally clear the session reference. -/
def ReplicationSlotRelease (serverMode : ServerMode) (env : SlotEnv) : SlotEnv :=
  match env.mySlot with
  | none => env
  | some i =>
    let slot := env.slots.getD i defaultSlot
    if slot.active = false then
      { env with mySlot := none }
    else
      let envA :=
        if slot.data.persistency = ReplicationSlotPersistency.RS_EPHEMERAL then
          ReplicationSlotDropAcquired serverMode env
        else
          updateSlotAt env i fun s => { s with active := false }
      let cur := envA.slots.getD i defaultSlot
      let envB :=
        if cur.data.xmin = InvalidTransactionId ∧
            cur.effective_xmin ≠ InvalidTransactionId then
          envComputeRequiredXmin
            (updateSlotAt envA i fun s => { s with effective_xmin := InvalidTransactionId })
        else envA
      { envB with mySlot := none }

/-! ## Derived definitions used by the theorem statements -/

/-- The valid (non-invalid) entries of a list of transaction ids. -/
def xidValids (l : List TransactionId) : List TransactionId :=
  l.filter fun e => e != InvalidTransactionId

/-- The reduction step of the logical-LSN fold, on bare values. -/
def lsnMinStep (r v : XLogRecPtr) : XLogRecPtr :=
  if r = InvalidXLogRecPtr ∨ v < r then v else r

/-- restart_lsn of the in_use logical slots, in table order. -/
def logicalRestartVals (slots : List ReplicationSlot) : List XLogRecPtr :=
  ((slots.filter fun s => s.in_use).filter
      fun s => s.data.database != InvalidOid).map
    fun s => s.data.restart_lsn

/-- A record equal to what save writes except for a corrupted checksum. -/
def corruptRecord (d : ReplicationSlotPersistentData) : ReplicationSlotOnDisk :=
  { buildOnDiskRecord d with checksum := (buildOnDiskRecord d).checksum + 1 }

/-- Concrete persistent slot data for witnesses. -/
def sampleData : ReplicationSlotPersistentData :=
  { name := [115, 49], database := 0, persistency := .RS_PERSISTENT,
    xmin := 9, catalog_xmin := 7, restart_lsn := 4096, isDummyStandby := false }

/-- Concrete ephemeral slot data. -/
def sampleEphemeralData : ReplicationSlotPersistentData :=
  { sampleData with name := [101, 49], persistency := .RS_EPHEMERAL }

/-- An environment with no slots. -/
def emptyEnv : SlotEnv :=
  { slots := [], mySlot := none, diskDirs := [], published_xmin := 0,
    published_catalog_xmin := 0, published_min_lsn := 0, published_max_lsn := 0 }

/-- An in_use, inactive physical slot named "a". -/
def dupTestSlot : ReplicationSlot :=
  { defaultSlot with
    in_use := true,
    data := { defaultSlot.data with name := [97] } }

/-- An environment holding just dupTestSlot. -/
def dupTestEnv : SlotEnv := { emptyEnv with slots := [dupTestSlot] }

/-- An in_use logical slot with the given restart_lsn. -/
def logicalTestSlot (lsn : XLogRecPtr) : ReplicationSlot :=
  { defaultSlot with
    in_use := true,
    data := { defaultSlot.data with database := 1, restart_lsn := lsn } }

/-- Two in_use logical slots, the second with an invalid restart_lsn. -/
def cexLogicalSlots : List ReplicationSlot :=
  [logicalTestSlot 5, logicalTestSlot 0]

/-- A one-entry table with valid effective xmins, for the xmin witness. -/
def sampleXminSlots : List ReplicationSlot :=
  [{ defaultSlot with
     in_use := true,
     effective_xmin := 10,
     effective_catalog_xmin := 7 }]

/-- An acquired ephemeral slot named "e1". -/
def ephTestSlot : ReplicationSlot :=
  { defaultSlot with
    in_use := true,
    active := true,
    data := { defaultSlot.data with
              name := [101, 49],
              persistency := .RS_EPHEMERAL } }

/-- An environment in which ephTestSlot is the session's current slot. -/
def ephTestEnv : SlotEnv :=
  { emptyEnv with
    slots := [ephTestSlot],
    mySlot := some 0,
    diskDirs := [[101, 49]] }

/-! ## Helper lemmas: lists -/

theorem list_getD_set_self {α : Type} (l : List α) (i : Nat) (a d : α)
    (h : i < l.length) : (l.set i a).getD i d = a := by
  induction l generalizing i with
  | nil => simp at h
  | cons x t ih =>
    cases i with
    | zero => rfl
    | succ n =>
      simp only [List.set, List.getD, List.get?]
      exact ih n (by simpa using h)

theorem list_getD_set_ne {α : Type} (l : List α) (i j : Nat) (a d : α)
    (h : i ≠ j) : (l.set i a).getD j d = l.getD j d := by
  induction l generalizing i j with
  | nil => rfl
  | cons x t ih =>
    cases i with
    | zero =>
      cases j with
      | zero => exact absurd rfl h
      | succ m => rfl
    | succ n =>
      cases j with
      | zero => rfl
      | succ m =>
        simp only [List.set, List.getD, List.get?]
        exact ih n m (by omega)

theorem list_length_set {α : Type} (l : List α) (i : Nat) (a : α) :
    (l.set i a).length = l.length := by
  simp

theorem list_getD_set_self2 {α : Type} (l : List α) (i : Nat)
    (h : i < l.length) (a d : α) : (l.set i a).getD i d = a :=
  list_getD_set_self l i a d h

theorem list_getD_set_ne2 {α : Type} (l : List α) (i j : Nat) (h : i ≠ j)
    (a d : α) : (l.set i a).getD j d = l.getD j d :=
  list_getD_set_ne l i j a d h

theorem updateSlotAt_slots (env : SlotEnv) (i : Nat)
    (f : ReplicationSlot → ReplicationSlot) :
    (updateSlotAt env i f).slots =
      env.slots.set i (f (env.slots.getD i defaultSlot)) := rfl

theorem list_set_set {α : Type} (l : List α) (i : Nat) (a b : α) :
    (l.set i a).set i b = l.set i b := by
  induction l generalizing i with
  | nil => rfl
  | cons x t ih =>
    cases i with
    | zero => rfl
    | succ n => simp only [List.set]; rw [ih]

/-! ## Helper lemmas: scans -/

theorem firstFreeIndex_lt (slots : List ReplicationSlot) (i : Nat)
    (h : firstFreeIndex slots = some i) : i < slots.length := by
  induction slots generalizing i with
  | nil => simp [firstFreeIndex] at h
  | cons s t ih =>
    by_cases hs : s.in_use = false
    · simp [firstFreeIndex, hs] at h
      simp
      omega
    · simp [firstFreeIndex, hs] at h
      obtain ⟨j, hj, hji⟩ := h
      have := ih j hj
      simp
      omega

theorem findNameIndex_lt (nm : List Nat) (slots : List ReplicationSlot) (i : Nat)
    (h : findNameIndex nm slots = some i) : i < slots.length := by
  induction slots generalizing i with
  | nil => simp [findNameIndex] at h
  | cons s t ih =>
    by_cases hs : s.in_use = true ∧ s.data.name = nm
    · simp [findNameIndex, hs] at h
      simp
      omega
    · simp [findNameIndex, hs] at h
      obtain ⟨j, hj, hji⟩ := h
      have := ih j hj
      simp
      omega

theorem findNameIndex_none_of_getD (nm : List Nat) (slots : List ReplicationSlot)
    (h : ∀ j, j < slots.length →
      ¬((slots.getD j defaultSlot).in_use = true ∧
        (slots.getD j defaultSlot).data.name = nm)) :
    findNameIndex nm slots = none := by
  induction slots with
  | nil => rfl
  | cons s t ih =>
    have h0 := h 0 (by simp)
    simp only [List.getD, List.get?, Option.getD] at h0
    have ht : findNameIndex nm t = none := by
      apply ih
      intro j hj
      have := h (j + 1) (by simp; omega)
      simpa [List.getD, List.get?] using this
    simp [findNameIndex, h0, ht]

/-! ## Helper lemmas: environment wrappers touch only published fields -/

theorem envComputeRequiredXmin_slots (env : SlotEnv) :
    (envComputeRequiredXmin env).slots = env.slots := rfl

theorem envComputeRequiredXmin_mySlot (env : SlotEnv) :
    (envComputeRequiredXmin env).mySlot = env.mySlot := rfl

theorem envComputeRequiredXmin_diskDirs (env : SlotEnv) :
    (envComputeRequiredXmin env).diskDirs = env.diskDirs := rfl

theorem envComputeRequiredLSN_slots (m : ServerMode) (env : SlotEnv) :
    (envComputeRequiredLSN m env).slots = env.slots := by
  cases h : (ReplicationSlotsComputeRequiredLSN m env.slots none).1 <;>
    simp [envComputeRequiredLSN, h]

theorem envComputeRequiredLSN_mySlot (m : ServerMode) (env : SlotEnv) :
    (envComputeRequiredLSN m env).mySlot = env.mySlot := by
  cases h : (ReplicationSlotsComputeRequiredLSN m env.slots none).1 <;>
    simp [envComputeRequiredLSN, h]

theorem envComputeRequiredLSN_diskDirs (m : ServerMode) (env : SlotEnv) :
    (envComputeRequiredLSN m env).diskDirs = env.diskDirs := by
  cases h : (ReplicationSlotsComputeRequiredLSN m env.slots none).1 <;>
    simp [envComputeRequiredLSN, h]

/-! ## Helper lemmas: the on-disk codec -/

theorem checkRecord_build (d : ReplicationSlotPersistentData) :
    checkRecord (buildOnDiskRecord d) = true := by
  simp [checkRecord, buildOnDiskRecord]

theorem checkRecord_corrupt (d : ReplicationSlotPersistentData) :
    checkRecord (corruptRecord d) = false := by
  have h : (crc32c (serializeSlotData d) == crc32c (serializeSlotData d) + 1) = false := by
    simp
  simp [checkRecord, corruptRecord, buildOnDiskRecord, h]

theorem leBytes_length (w n : Nat) : (leBytes w n).length = w := by
  induction w generalizing n with
  | zero => rfl
  | succ k ih => simp [leBytes, ih]

theorem serializeName_length (name : List Nat) :
    (serializeName name).length = NAMEDATALEN := by
  simp [serializeName, NAMEDATALEN]

theorem serializeSlotData_length (d : ReplicationSlotPersistentData) :
    (serializeSlotData d).length = ReplicationSlotOnDiskDynamicSize := by
  simp [serializeSlotData, leBytes_length, serializeName_length,
    NAMEDATALEN, ReplicationSlotOnDiskDynamicSize]

/-! ## Helper lemmas: the wrap-aware xmin fold -/

theorem xid_precedes_iff (B x y : Nat) (hB : B < XID_MOD)
    (hx : XidInWindow B x) (hy : XidInWindow B y) :
    TransactionIdPrecedes x y = true ↔ xidKey B x < xidKey B y := by
  obtain ⟨hx1, hx2⟩ := hx
  obtain ⟨hy1, hy2⟩ := hy
  unfold xidKey XID_MOD XID_HALF at *
  simp only [TransactionIdPrecedes, XID_MOD, XID_HALF, decide_eq_true_eq]
  omega

theorem xminAggStep_cases (agg e : TransactionId) :
    xminAggStep agg e = e ∨ xminAggStep agg e = agg := by
  unfold xminAggStep
  split <;> simp

theorem xminAggStep_eq_zero_iff (agg e : TransactionId) :
    xminAggStep agg e = InvalidTransactionId ↔
      (agg = InvalidTransactionId ∧ e = InvalidTransactionId) := by
  unfold xminAggStep InvalidTransactionId
  by_cases h : e ≠ 0 ∧ (agg = 0 ∨ TransactionIdPrecedes e agg = true)
  · rw [if_pos h]
    have he := h.1
    tauto
  · rw [if_neg h]
    constructor
    · intro ha
      refine ⟨ha, ?_⟩
      by_contra he
      exact h ⟨he, Or.inl ha⟩
    · intro hp
      exact hp.1

theorem xminFold_eq_zero_iff (vals : List TransactionId) :
    ∀ agg : TransactionId,
      (vals.foldl xminAggStep agg = InvalidTransactionId ↔
        (agg = InvalidTransactionId ∧ ∀ e ∈ vals, e = InvalidTransactionId)) := by
  induction vals with
  | nil => intro agg; simp
  | cons x t ih =>
    intro agg
    simp only [List.foldl_cons, ih, xminAggStep_eq_zero_iff, List.mem_cons]
    constructor
    · intro ⟨⟨ha, hx⟩, hrest⟩
      refine ⟨ha, ?_⟩
      intro e he
      rcases he with he | he
      · exact he ▸ hx
      · exact hrest e he
    · intro ⟨ha, hall⟩
      exact ⟨⟨ha, hall x (Or.inl rfl)⟩, fun e he => hall e (Or.inr he)⟩

theorem xminFold_mem (vals : List TransactionId) :
    ∀ agg : TransactionId,
      vals.foldl xminAggStep agg = agg ∨ vals.foldl xminAggStep agg ∈ vals := by
  induction vals with
  | nil => intro agg; simp
  | cons x t ih =>
    intro agg
    simp only [List.foldl_cons, List.mem_cons]
    rcases ih (xminAggStep agg x) with h | h
    · rw [h]
      rcases xminAggStep_cases agg x with h2 | h2
      · exact Or.inr (Or.inl h2)
      · exact Or.inl h2
    · exact Or.inr (Or.inr h)

theorem xminFold_min (B : Nat) (hB : B < XID_MOD) (vals : List TransactionId) :
    ∀ agg : TransactionId,
      (∀ e ∈ vals, e ≠ InvalidTransactionId → XidInWindow B e) →
      (agg = InvalidTransactionId ∨ XidInWindow B agg) →
      ((agg ≠ InvalidTransactionId →
          xidKey B (vals.foldl xminAggStep agg) ≤ xidKey B agg) ∧
        (∀ e ∈ vals, e ≠ InvalidTransactionId →
          xidKey B (vals.foldl xminAggStep agg) ≤ xidKey B e)) := by
  induction vals with
  | nil =>
    intro agg hw hagg
    constructor
    · intro _
      simp
    · intro e he
      simp at he
  | cons x t ih =>
    intro agg hw hagg
    simp only [List.foldl_cons, List.mem_cons]
    have hwt : ∀ e ∈ t, e ≠ InvalidTransactionId → XidInWindow B e :=
      fun e he => hw e (List.mem_cons_of_mem x he)
    have hwx : x ≠ InvalidTransactionId → XidInWindow B x :=
      hw x (List.mem_cons_self x t)
    by_cases hcond : x ≠ 0 ∧ (agg = 0 ∨ TransactionIdPrecedes x agg = true)
    · have hstep : xminAggStep agg x = x := by
        unfold xminAggStep InvalidTransactionId
        rw [if_pos hcond]
      rw [hstep]
      have hx0 : x ≠ 0 := hcond.1
      have ihx := ih x hwt (Or.inr (hwx hx0))
      have hfx : xidKey B (t.foldl xminAggStep x) ≤ xidKey B x := ihx.1 hx0
      constructor
      · intro hagg0
        rcases hcond.2 with h0 | hprec
        · exact absurd h0 hagg0
        · have hwagg : XidInWindow B agg := by
            rcases hagg with h | h
            · exact absurd h hagg0
            · exact h
          have hlt : xidKey B x < xidKey B agg :=
            (xid_precedes_iff B x agg hB (hwx hx0) hwagg).mp hprec
          exact le_trans hfx (le_of_lt hlt)
      · intro e he he0
        rcases he with rfl | het
        · exact hfx
        · exact ihx.2 e het he0
    · have hstep : xminAggStep agg x = agg := by
        unfold xminAggStep InvalidTransactionId
        rw [if_neg hcond]
      rw [hstep]
      have ihagg := ih agg hwt hagg
      constructor
      · intro hagg0
        exact ihagg.1 hagg0
      · intro e he he0
        rcases he with rfl | het
        · have hagg0 : agg ≠ 0 := by
            intro h0
            exact hcond ⟨he0, Or.inl h0⟩
          have hnp : ¬ TransactionIdPrecedes e agg = true := by
            intro hp
            exact hcond ⟨he0, Or.inr hp⟩
          have hwagg : XidInWindow B agg := by
            rcases hagg with h | h
            · exact absurd h hagg0
            · exact h
          have hnlt : ¬ (xidKey B e < xidKey B agg) := by
            intro hlt
            exact hnp ((xid_precedes_iff B e agg hB (hwx he0) hwagg).mpr hlt)
          exact le_trans (ihagg.1 hagg0) (le_of_not_lt hnlt)
        · exact ihagg.2 e het he0

theorem xminFold_window (B : Nat) (vals : List TransactionId)
    (agg : TransactionId)
    (hw : ∀ e ∈ vals, e ≠ InvalidTransactionId → XidInWindow B e)
    (hagg : agg = InvalidTransactionId ∨ XidInWindow B agg) :
    vals.foldl xminAggStep agg = InvalidTransactionId ∨
      XidInWindow B (vals.foldl xminAggStep agg) := by
  rcases xminFold_mem vals agg with h | h
  · rw [h]
    exact hagg
  · by_cases h0 : vals.foldl xminAggStep agg = InvalidTransactionId
    · exact Or.inl h0
    · exact Or.inr (hw _ h h0)

theorem wrapMin_fold (B : Nat) (hB : B < XID_MOD) (vals : List TransactionId)
    (hw : ∀ e ∈ vals, e ≠ InvalidTransactionId → XidInWindow B e) :
    IsWrapMinOf (vals.foldl xminAggStep InvalidTransactionId) (xidValids vals) := by
  constructor
  · intro hnil
    have hall : ∀ e ∈ vals, e = InvalidTransactionId := by
      intro e he
      by_contra h0
      have hmem : e ∈ xidValids vals := by
        simp [xidValids, List.mem_filter, he]
        exact h0
      rw [hnil] at hmem
      simp at hmem
    exact (xminFold_eq_zero_iff vals InvalidTransactionId).mpr ⟨rfl, hall⟩
  · intro hne
    have hex : ∃ e ∈ vals, e ≠ InvalidTransactionId := by
      rcases List.exists_mem_of_ne_nil (xidValids vals) hne with ⟨v, hv⟩
      simp [xidValids, List.mem_filter] at hv
      exact ⟨v, hv.1, hv.2⟩
    have h0 : vals.foldl xminAggStep InvalidTransactionId ≠ InvalidTransactionId := by
      intro hz
      obtain ⟨e, he, he0⟩ := hex
      exact he0 (((xminFold_eq_zero_iff vals InvalidTransactionId).mp hz).2 e he)
    have hmem : vals.foldl xminAggStep InvalidTransactionId ∈ vals := by
      rcases xminFold_mem vals InvalidTransactionId with h | h
      · exact absurd h h0
      · exact h
    refine ⟨?_, ?_⟩
    · simp [xidValids, List.mem_filter, hmem]
      exact h0
    · intro e he
      have he' : e ∈ vals ∧ e ≠ InvalidTransactionId := by
        simpa [xidValids, List.mem_filter] using he
      have hmin :=
        (xminFold_min B hB vals InvalidTransactionId hw (Or.inl rfl)).2 e he'.1 he'.2
      by_contra hp
      simp only [Bool.not_eq_false] at hp
      have hwfold : XidInWindow B (vals.foldl xminAggStep InvalidTransactionId) := by
        rcases xminFold_window B vals InvalidTransactionId hw (Or.inl rfl) with hz | hwf
        · exact absurd hz h0
        · exact hwf
      have hlt := (xid_precedes_iff B e _ hB (hw e he'.1 he'.2) hwfold).mp hp
      omega

theorem computeRequiredXmin_eq (slots : List ReplicationSlot) :
    ∀ a b : TransactionId,
      slots.foldl
        (fun agg s =>
          if s.in_use then
            (xminAggStep agg.1 s.effective_xmin,
              xminAggStep agg.2 s.effective_catalog_xmin)
          else agg) (a, b) =
        ((inUseEffectiveXmins slots).foldl xminAggStep a,
          (inUseEffectiveCatalogXmins slots).foldl xminAggStep b) := by
  induction slots with
  | nil =>
    intro a b
    simp [inUseEffectiveXmins, inUseEffectiveCatalogXmins]
  | cons s t ih =>
    intro a b
    by_cases hs : s.in_use = true
    · rw [List.foldl_cons, if_pos hs, ih]
      simp [inUseEffectiveXmins, inUseEffectiveCatalogXmins, List.filter_cons, hs]
    · rw [List.foldl_cons, if_neg hs, ih]
      simp [inUseEffectiveXmins, inUseEffectiveCatalogXmins, List.filter_cons, hs]

theorem inUseEffectiveXmins_mem (slots : List ReplicationSlot)
    (e : TransactionId) (he : e ∈ inUseEffectiveXmins slots) :
    ∃ s, s ∈ slots ∧ s.in_use = true ∧ s.effective_xmin = e := by
  simp only [inUseEffectiveXmins, List.mem_map, List.mem_filter] at he
  obtain ⟨s, ⟨hs, hu⟩, hex⟩ := he
  exact ⟨s, hs, hu, hex⟩

theorem inUseEffectiveCatalogXmins_mem (slots : List ReplicationSlot)
    (e : TransactionId) (he : e ∈ inUseEffectiveCatalogXmins slots) :
    ∃ s, s ∈ slots ∧ s.in_use = true ∧ s.effective_catalog_xmin = e := by
  simp only [inUseEffectiveCatalogXmins, List.mem_map, List.mem_filter] at he
  obtain ⟨s, ⟨hs, hu⟩, hex⟩ := he
  exact ⟨s, hs, hu, hex⟩

/-! ## Helper lemmas: the logical restart-LSN fold -/

theorem logicalRestart_eq_listFold (slots : List ReplicationSlot) :
    ∀ acc : XLogRecPtr,
      slots.foldl logicalRestartStep acc =
        (logicalRestartVals slots).foldl lsnMinStep acc := by
  induction slots with
  | nil =>
    intro acc
    simp [logicalRestartVals]
  | cons s t ih =>
    intro acc
    rw [List.foldl_cons]
    by_cases hs : s.in_use = true ∧ s.data.database ≠ InvalidOid
    · have hstep : logicalRestartStep acc s = lsnMinStep acc s.data.restart_lsn := by
        unfold logicalRestartStep lsnMinStep
        rw [if_pos hs]
      have hv : logicalRestartVals (s :: t) =
          s.data.restart_lsn :: logicalRestartVals t := by
        simp [logicalRestartVals, List.filter_cons, hs.1, hs.2]
      rw [hstep, ih, hv, List.foldl_cons]
    · have hstep : logicalRestartStep acc s = acc := by
        unfold logicalRestartStep
        rw [if_neg hs]
      have hv : logicalRestartVals (s :: t) = logicalRestartVals t := by
        by_cases h1 : s.in_use = true
        · have h2 : s.data.database = InvalidOid := by
            by_contra h2
            exact hs ⟨h1, h2⟩
          simp [logicalRestartVals, List.filter_cons, h1, h2]
        · simp [logicalRestartVals, List.filter_cons, h1]
      rw [hstep, ih, hv]

theorem lsnFold_min_all_valid (vals : List XLogRecPtr) :
    ∀ acc : XLogRecPtr, acc ≠ InvalidXLogRecPtr →
      (∀ v ∈ vals, v ≠ InvalidXLogRecPtr) →
      vals.foldl lsnMinStep acc = vals.foldl Nat.min acc := by
  induction vals with
  | nil =>
    intro acc _ _
    rfl
  | cons v t ih =>
    intro acc hacc hall
    rw [List.foldl_cons, List.foldl_cons]
    have hv : v ≠ InvalidXLogRecPtr := hall v (List.mem_cons_self v t)
    have hstep : lsnMinStep acc v = Nat.min acc v := by
      unfold lsnMinStep InvalidXLogRecPtr
      unfold InvalidXLogRecPtr at hacc
      by_cases hlt : v < acc
      · rw [if_pos (Or.inr hlt)]
        exact (Nat.min_eq_right (Nat.le_of_lt hlt)).symm
      · have hno : ¬(acc = 0 ∨ v < acc) := by
          intro h
          rcases h with h | h
          · exact hacc h
          · exact hlt h
        rw [if_neg hno]
        exact (Nat.min_eq_left (Nat.le_of_not_lt hlt)).symm
    rw [hstep]
    apply ih
    · unfold InvalidXLogRecPtr at *
      intro h0
      have h0' : (if acc ≤ v then acc else v) = 0 := h0
      by_cases hle : acc ≤ v
      · rw [if_pos hle] at h0'
        exact hacc h0'
      · rw [if_neg hle] at h0'
        exact hv h0'
    · intro w hw
      exact hall w (List.mem_cons_of_mem v hw)

theorem logicalRestartVals_filter_eq (slots : List ReplicationSlot)
    (h : ∀ v ∈ logicalRestartVals slots, v ≠ InvalidXLogRecPtr) :
    (logicalRestartVals slots).filter (fun r => r != InvalidXLogRecPtr) =
      logicalRestartVals slots := by
  apply List.filter_eq_self.mpr
  intro a ha
  simpa using h a ha

/-! ## Helper lemmas: the write-back flag fold -/

theorem foldl_markDirtyFlags (evts : List Unit) :
    ∀ s : DirtyState,
      evts.foldl (fun st _ => markDirtyFlags st) s =
        if evts.isEmpty then s else { dirty := true, just_dirtied := true } := by
  induction evts with
  | nil =>
    intro s
    rfl
  | cons e t ih =>
    intro s
    rw [List.foldl_cons, ih]
    cases t <;> simp [markDirtyFlags]

/-! ## Claim theorems -/

/-- C7: every record save writes (to state.backup and to state.tmp, the
latter renamed to state) has magic SLOT_MAGIC, version 1, length equal to
the size of the dynamic region, and a CRC-32C computed over exactly the
dynamic region - the bytes of the persistent data only, excluding the
16-byte constant header - so the record passes the restorer's
verification. -/
theorem slot_C7 (d : ReplicationSlotPersistentData) :
    (buildOnDiskRecord d).magic = SLOT_MAGIC ∧
    (buildOnDiskRecord d).version = 1 ∧
    (buildOnDiskRecord d).length = ReplicationSlotOnDiskDynamicSize ∧
    (buildOnDiskRecord d).checksum = crc32c (serializeSlotData d) ∧
    (serializeSlotData d).length = ReplicationSlotOnDiskDynamicSize ∧
    checkRecord (buildOnDiskRecord d) = true :=
  ⟨rfl, rfl, rfl, rfl, serializeSlotData_length d, checkRecord_build d⟩

/-- C6: save on a clean slot performs no write and only clears just_dirtied;
on a dirty slot it writes, and afterwards dirty is cleared exactly when
just_dirtied stayed false - so a concurrent mark_dirty interleaved after
the initial read (a nonempty interleaving) leaves dirty set for the next
save. -/
theorem slot_C6 (s : DirtyState) (interleaved : List Unit) :
    (s.dirty = false →
      SaveSlotToPathDirty s interleaved =
        ({ dirty := false, just_dirtied := false }, false)) ∧
    (s.dirty = true →
      (SaveSlotToPathDirty s interleaved).2 = true ∧
      ((SaveSlotToPathDirty s interleaved).1.dirty = false ↔ interleaved = []) ∧
      (SaveSlotToPathDirty s interleaved).1.dirty =
        (SaveSlotToPathDirty s interleaved).1.just_dirtied) := by
  obtain ⟨d, j⟩ := s
  cases d
  · constructor
    · intro _
      rfl
    · intro h
      cases h
  · constructor
    · intro h
      cases h
    · intro _
      cases interleaved with
      | nil =>
        refine ⟨rfl, ?_, rfl⟩
        simp [SaveSlotToPathDirty, markDirtyFlags]
      | cons e t =>
        have hf : (e :: t).foldl (fun st _ => markDirtyFlags st)
            { dirty := true, just_dirtied := false } =
            { dirty := true, just_dirtied := true } := by
          rw [foldl_markDirtyFlags]
          simp
        refine ⟨?_, ?_, ?_⟩ <;>
          simp [SaveSlotToPathDirty, hf]

/-- C6 witness: a dirty slot saved with one interleaved mark_dirty reports
a write, and dirty stays set because just_dirtied is set again. -/
theorem slot_C6_witness :
    (SaveSlotToPathDirty { dirty := true, just_dirtied := false } [()]).2 = true ∧
    ((SaveSlotToPathDirty { dirty := true, just_dirtied := false } [()]).1.dirty = false ↔
      ([()] : List Unit) = []) ∧
    (SaveSlotToPathDirty { dirty := true, just_dirtied := false } [()]).1.dirty =
      (SaveSlotToPathDirty { dirty := true, just_dirtied := false } [()]).1.just_dirtied :=
  (slot_C6 { dirty := true, just_dirtied := false } [()]).2 rfl

/-- C10: find validates the name at error severity before scanning - a null,
empty, overlong name or one with a character outside the grammar raises
INVALID_NAME or NAME_TOO_LONG instead of returning false - and the scan
performs no write to any slot entry. -/
theorem slot_C10 (name : Option (List Nat)) (env : SlotEnv)
    (hbad : name = none ∨ ∃ l, name = some l ∧
      (l.length = 0 ∨ NAMEDATALEN ≤ l.length ∨ ∃ c ∈ l, validNameChar c = false)) :
    ((ReplicationSlotFind name env).1 = Except.error ErrCode.INVALID_NAME ∨
      (ReplicationSlotFind name env).1 = Except.error ErrCode.NAME_TOO_LONG) ∧
    (ReplicationSlotFind name env).2 = env := by
  have hval : ∃ e, ReplicationSlotValidateName name = some e ∧
      (e = ErrCode.INVALID_NAME ∨ e = ErrCode.NAME_TOO_LONG) := by
    rcases hbad with rfl | ⟨l, rfl, hl⟩
    · exact ⟨ErrCode.INVALID_NAME, rfl, Or.inl rfl⟩
    · simp only [ReplicationSlotValidateName]
      rcases hl with h0 | hlen | ⟨c, hc, hcv⟩
      · rw [if_pos h0]
        exact ⟨_, rfl, Or.inl rfl⟩
      · have h64 : (64 : Nat) ≤ l.length := hlen
        have h0 : ¬ l.length = 0 := by omega
        rw [if_neg h0, if_pos hlen]
        exact ⟨_, rfl, Or.inr rfl⟩
      · by_cases h0 : l.length = 0
        · rw [if_pos h0]
          exact ⟨_, rfl, Or.inl rfl⟩
        · rw [if_neg h0]
          by_cases hlen : NAMEDATALEN ≤ l.length
          · rw [if_pos hlen]
            exact ⟨_, rfl, Or.inr rfl⟩
          · rw [if_neg hlen]
            have hall : ¬ l.all validNameChar = true := by
              intro hA
              have hcc := List.all_eq_true.mp hA c hc
              rw [hcv] at hcc
              cases hcc
            rw [if_neg hall]
            exact ⟨_, rfl, Or.inl rfl⟩
  obtain ⟨e, he, hor⟩ := hval
  unfold ReplicationSlotFind
  rw [he]
  refine ⟨?_, rfl⟩
  rcases hor with rfl | rfl
  · exact Or.inl rfl
  · exact Or.inr rfl

/-- C10 witness: a name with an uppercase character raises INVALID_NAME and
leaves the environment untouched. -/
theorem slot_C10_witness :
    ((ReplicationSlotFind (some [65]) emptyEnv).1 =
        Except.error ErrCode.INVALID_NAME ∨
      (ReplicationSlotFind (some [65]) emptyEnv).1 =
        Except.error ErrCode.NAME_TOO_LONG) ∧
    (ReplicationSlotFind (some [65]) emptyEnv).2 = emptyEnv :=
  slot_C10 (some [65]) emptyEnv
    (Or.inr ⟨[65], rfl, Or.inr (Or.inr ⟨65, by decide, by decide⟩)⟩)

/-- C4 counterexample: two in_use logical slots, restart_lsn 5 then INVALID.
The source lets the INVALID restart_lsn win the comparison 0 < 5 and
returns INVALID, while the claimed invalid-neutral minimum is 5 - so an
INVALID restart_lsn on an in_use logical slot does become the result while
another logical slot holds a valid one. -/
theorem slot_C4_counterexample :
    ReplicationSlotsComputeLogicalRestartLSN cexLogicalSlots = InvalidXLogRecPtr ∧
    specLogicalRestartLSN cexLogicalSlots = 5 ∧
    (5 : XLogRecPtr) ≠ InvalidXLogRecPtr := by
  refine ⟨rfl, rfl, by decide⟩

/-- C4 as amended: when every in_use logical slot carries a valid
restart_lsn, logical_restart_lsn returns their numeric minimum, and INVALID
when no in_use logical slot exists; without that proviso the fold treats an
INVALID restart_lsn like any other value (it overwrites the accumulator and
is overwritten in turn), so the result is not the invalid-neutral
minimum. -/
theorem slot_C4 (slots : List ReplicationSlot)
    (h : ∀ s ∈ slots, s.in_use = true → s.data.database ≠ InvalidOid →
      s.data.restart_lsn ≠ InvalidXLogRecPtr) :
    ReplicationSlotsComputeLogicalRestartLSN slots = specLogicalRestartLSN slots := by
  have hvals : ∀ v ∈ logicalRestartVals slots, v ≠ InvalidXLogRecPtr := by
    intro v hv
    simp only [logicalRestartVals, List.mem_map, List.mem_filter] at hv
    obtain ⟨s, ⟨⟨hs, hu⟩, hdb⟩, hrv⟩ := hv
    rw [← hrv]
    apply h s hs hu
    simpa using hdb
  unfold ReplicationSlotsComputeLogicalRestartLSN
  rw [logicalRestart_eq_listFold]
  have hspec : specLogicalRestartLSN slots =
      (match (logicalRestartVals slots).filter (fun r => r != InvalidXLogRecPtr) with
        | [] => InvalidXLogRecPtr
        | v :: rest => rest.foldl Nat.min v) := rfl
  rw [hspec, logicalRestartVals_filter_eq slots hvals]
  cases hv : logicalRestartVals slots with
  | nil => rfl
  | cons v rest =>
    rw [List.foldl_cons]
    have h0 : lsnMinStep InvalidXLogRecPtr v = v := by
      unfold lsnMinStep
      rw [if_pos (Or.inl rfl)]
    rw [h0]
    have hvne : v ≠ InvalidXLogRecPtr := by
      apply hvals
      rw [hv]
      exact List.mem_cons_self v rest
    have hrest : ∀ w ∈ rest, w ≠ InvalidXLogRecPtr := by
      intro w hw
      apply hvals
      rw [hv]
      exact List.mem_cons_of_mem v hw
    exact lsnFold_min_all_valid rest v hvne hrest

/-- C4 witness: on a table whose only in_use logical slot has a valid
restart_lsn, the code and the invalid-neutral minimum agree. -/
theorem slot_C4_witness :
    ReplicationSlotsComputeLogicalRestartLSN [logicalTestSlot 5] =
      specLogicalRestartLSN [logicalTestSlot 5] :=
  slot_C4 [logicalTestSlot 5] (by decide)

/-- C9 counterexample: with MAX_SLOTS = 0 (an empty table) and a non-null
out-structure, recompute_required_lsn returns without touching the three
output fields - whatever garbage was there before the call is still there
after it, and two different garbage values stay different, so the fields
are not filled. -/
theorem slot_C9_counterexample :
    (ReplicationSlotsComputeRequiredLSN ServerMode.STANDBY_MODE []
        (some { min_required := 5, max_required := 7, exist_in_use := true })).2 =
      some { min_required := 5, max_required := 7, exist_in_use := true } ∧
    (ReplicationSlotsComputeRequiredLSN ServerMode.STANDBY_MODE []
        (some { min_required := 1, max_required := 2, exist_in_use := false })).2 =
      some { min_required := 1, max_required := 2, exist_in_use := false } ∧
    ({ min_required := 5, max_required := 7, exist_in_use := true } :
        ReplicationSlotState) ≠
      { min_required := 1, max_required := 2, exist_in_use := false } := by
  refine ⟨rfl, rfl, by decide⟩

/-- C9 as amended: when MAX_SLOTS > 0 (a non-empty table), every call with
a non-null state_out fills all three output fields - min, max and
exists_in_use - with the values of the scan, regardless of what the
structure held before; when MAX_SLOTS = 0 the operation returns immediately
and the structure is left untouched. -/
theorem slot_C9 (serverMode : ServerMode) (slots : List ReplicationSlot)
    (g : ReplicationSlotState) (h : slots ≠ []) :
    (ReplicationSlotsComputeRequiredLSN serverMode slots (some g)).2 =
      some { min_required := (slots.foldl (requiredLSNStep serverMode)
               (InvalidXLogRecPtr, InvalidXLogRecPtr, false)).1,
             max_required := (slots.foldl (requiredLSNStep serverMode)
               (InvalidXLogRecPtr, InvalidXLogRecPtr, false)).2.1,
             exist_in_use := (slots.foldl (requiredLSNStep serverMode)
               (InvalidXLogRecPtr, InvalidXLogRecPtr, false)).2.2 } := by
  unfold ReplicationSlotsComputeRequiredLSN
  rw [if_neg (by simpa using h)]

/-- C9 witness: a one-slot table with arbitrary prior garbage in the
out-structure gets all three fields overwritten by the scan results. -/
theorem slot_C9_witness :
    (ReplicationSlotsComputeRequiredLSN ServerMode.PRIMARY_MODE sampleXminSlots
        (some { min_required := 99, max_required := 99, exist_in_use := false })).2 =
      some { min_required := (sampleXminSlots.foldl
               (requiredLSNStep ServerMode.PRIMARY_MODE)
               (InvalidXLogRecPtr, InvalidXLogRecPtr, false)).1,
             max_required := (sampleXminSlots.foldl
               (requiredLSNStep ServerMode.PRIMARY_MODE)
               (InvalidXLogRecPtr, InvalidXLogRecPtr, false)).2.1,
             exist_in_use := (sampleXminSlots.foldl
               (requiredLSNStep ServerMode.PRIMARY_MODE)
               (InvalidXLogRecPtr, InvalidXLogRecPtr, false)).2.2 } :=
  slot_C9 ServerMode.PRIMARY_MODE sampleXminSlots
    { min_required := 99, max_required := 99, exist_in_use := false } (by decide)

/-- C1: round trip through disk.  The record a successful save wrote for a
persistent slot is verified and installed by a subsequent startup restore
into the first free table entry: the persistent subset is copied
bit-identically, effective_xmin and effective_catalog_xmin are initialized
from the persistent xmins, all candidate fields are cleared, in_use is set
and active is clear. -/
theorem slot_C1 (d : ReplicationSlotPersistentData) (slots : List ReplicationSlot)
    (i : Nat) (hp : d.persistency = ReplicationSlotPersistency.RS_PERSISTENT)
    (hf : firstFreeIndex slots = some i) :
    ∃ entry : ReplicationSlot,
      (RestoreSlotFromDisk false (buildOnDiskRecord d) (buildOnDiskRecord d)
          slots).panicked = false ∧
      (RestoreSlotFromDisk false (buildOnDiskRecord d) (buildOnDiskRecord d)
          slots).warned = false ∧
      (RestoreSlotFromDisk false (buildOnDiskRecord d) (buildOnDiskRecord d)
          slots).slots = slots.set i entry ∧
      entry.data = d ∧
      entry.effective_xmin = d.xmin ∧
      entry.effective_catalog_xmin = d.catalog_xmin ∧
      entry.candidate_catalog_xmin = InvalidTransactionId ∧
      entry.candidate_xmin_lsn = InvalidXLogRecPtr ∧
      entry.candidate_restart_lsn = InvalidXLogRecPtr ∧
      entry.candidate_restart_valid = InvalidXLogRecPtr ∧
      entry.in_use = true ∧
      entry.active = false := by
  have hres : RestoreSlotFromDisk false (buildOnDiskRecord d) (buildOnDiskRecord d)
      slots = restoreProcessRecord (buildOnDiskRecord d) false false slots := by
    unfold RestoreSlotFromDisk
    rw [if_pos (checkRecord_build d)]
  have hproc : restoreProcessRecord (buildOnDiskRecord d) false false slots =
      { panicked := false, removedDir := false, warned := false,
        primaryRewritten := false,
        slots := slots.set i
          (installRestoredSlot (buildOnDiskRecord d) (slots.getD i defaultSlot)) } := by
    unfold restoreProcessRecord
    rw [if_neg (by simp [buildOnDiskRecord, hp]), hf]
  refine ⟨installRestoredSlot (buildOnDiskRecord d) (slots.getD i defaultSlot),
    ?_, ?_, ?_, rfl, rfl, rfl, rfl, rfl, rfl, rfl, rfl, rfl⟩ <;>
    rw [hres, hproc]

/-- C1 witness: saving sampleData and restoring it into a one-entry table
reproduces every persistent field in entry 0. -/
theorem slot_C1_witness :
    ∃ entry : ReplicationSlot,
      (RestoreSlotFromDisk false (buildOnDiskRecord sampleData)
          (buildOnDiskRecord sampleData) [defaultSlot]).panicked = false ∧
      (RestoreSlotFromDisk false (buildOnDiskRecord sampleData)
          (buildOnDiskRecord sampleData) [defaultSlot]).warned = false ∧
      (RestoreSlotFromDisk false (buildOnDiskRecord sampleData)
          (buildOnDiskRecord sampleData) [defaultSlot]).slots =
        [defaultSlot].set 0 entry ∧
      entry.data = sampleData ∧
      entry.effective_xmin = sampleData.xmin ∧
      entry.effective_catalog_xmin = sampleData.catalog_xmin ∧
      entry.candidate_catalog_xmin = InvalidTransactionId ∧
      entry.candidate_xmin_lsn = InvalidXLogRecPtr ∧
      entry.candidate_restart_lsn = InvalidXLogRecPtr ∧
      entry.candidate_restart_valid = InvalidXLogRecPtr ∧
      entry.in_use = true ∧
      entry.active = false :=
  slot_C1 sampleData [defaultSlot] 0 rfl rfl

/-- C2 counterexample: a corrupted primary with a valid backup that records
an ephemeral slot.  The restorer warns and reads the backup, the backup
verifies, yet the primary state file is never rewritten - the whole slot
directory is removed instead, because the source checks persistency before
calling RecoverReplSlotFile - contradicting the claim that a verified
backup is always written back to the primary. -/
theorem slot_C2_counterexample :
    checkRecord (corruptRecord sampleEphemeralData) = false ∧
    checkRecord (buildOnDiskRecord sampleEphemeralData) = true ∧
    (RestoreSlotFromDisk false (corruptRecord sampleEphemeralData)
        (buildOnDiskRecord sampleEphemeralData) [defaultSlot]).warned = true ∧
    (RestoreSlotFromDisk false (corruptRecord sampleEphemeralData)
        (buildOnDiskRecord sampleEphemeralData) [defaultSlot]).primaryRewritten =
      false ∧
    (RestoreSlotFromDisk false (corruptRecord sampleEphemeralData)
        (buildOnDiskRecord sampleEphemeralData) [defaultSlot]).removedDir = true := by
  have h1 : checkRecord (corruptRecord sampleEphemeralData) = false :=
    checkRecord_corrupt sampleEphemeralData
  have h2 : checkRecord (buildOnDiskRecord sampleEphemeralData) = true :=
    checkRecord_build sampleEphemeralData
  have hres : RestoreSlotFromDisk false (corruptRecord sampleEphemeralData)
      (buildOnDiskRecord sampleEphemeralData) [defaultSlot] =
      restoreProcessRecord (buildOnDiskRecord sampleEphemeralData) true true
        [defaultSlot] := by
    unfold RestoreSlotFromDisk
    rw [if_neg (by simp [h1]), if_neg (by simp), if_pos h2]
  have hproc : restoreProcessRecord (buildOnDiskRecord sampleEphemeralData) true
      true [defaultSlot] =
      { panicked := false, removedDir := true, warned := true,
        primaryRewritten := false, slots := [defaultSlot] } := by
    unfold restoreProcessRecord
    rw [if_pos (by decide)]
  exact ⟨h1, h2, by rw [hres, hproc], by rw [hres, hproc], by rw [hres, hproc]⟩

/-- C2 as amended: during startup restoration of one slot (primary and
backup state files both present, so no leftover state.tmp discarded the
backup - the configuration the claim describes), a primary that fails the
CRC, magic, or length check causes a warning and a retry of the whole read
from state.backup; if the backup also fails the check, the restorer panics;
on success the restorer rewrites the primary state file from the verified
backup record provided that record is persistent - a verified backup
recording an ephemeral slot instead leads to removal of the whole slot
directory without a rewrite. -/
theorem slot_C2 (prim bak : ReplicationSlotOnDisk) (slots : List ReplicationSlot)
    (hp : checkRecord prim = false) :
    (checkRecord bak = false →
      RestoreSlotFromDisk false prim bak slots =
        { panicked := true, removedDir := false, warned := true,
          primaryRewritten := false, slots := slots }) ∧
    (checkRecord bak = true →
      (RestoreSlotFromDisk false prim bak slots).warned = true ∧
      (bak.slotdata.persistency = ReplicationSlotPersistency.RS_PERSISTENT →
        (RestoreSlotFromDisk false prim bak slots).primaryRewritten = true ∧
        ∀ i, firstFreeIndex slots = some i →
          (RestoreSlotFromDisk false prim bak slots).slots =
            slots.set i (installRestoredSlot bak (slots.getD i defaultSlot))) ∧
      (bak.slotdata.persistency ≠ ReplicationSlotPersistency.RS_PERSISTENT →
        (RestoreSlotFromDisk false prim bak slots).removedDir = true ∧
        (RestoreSlotFromDisk false prim bak slots).primaryRewritten = false)) := by
  have h1 : RestoreSlotFromDisk false prim bak slots =
      (if checkRecord bak then restoreProcessRecord bak true true slots
       else { panicked := true, removedDir := false, warned := true,
              primaryRewritten := false, slots := slots }) := by
    unfold RestoreSlotFromDisk
    rw [if_neg (by simp [hp]), if_neg (by simp)]
  refine ⟨?_, ?_⟩
  · intro hb
    rw [h1, if_neg (by simp [hb])]
  · intro hb
    rw [h1, if_pos hb]
    refine ⟨?_, ?_, ?_⟩
    · unfold restoreProcessRecord
      by_cases hpers :
          bak.slotdata.persistency ≠ ReplicationSlotPersistency.RS_PERSISTENT
      · rw [if_pos hpers]
      · rw [if_neg hpers]
        cases hff : firstFreeIndex slots <;> rfl
    · intro hpers
      have hne : ¬ bak.slotdata.persistency ≠
          ReplicationSlotPersistency.RS_PERSISTENT := by
        simp [hpers]
      unfold restoreProcessRecord
      rw [if_neg hne]
      constructor
      · cases hff : firstFreeIndex slots <;> rfl
      · intro i hi
        rw [hi]
    · intro hpers
      unfold restoreProcessRecord
      rw [if_pos hpers]
      exact ⟨rfl, rfl⟩

/-- C2 witness: a corrupted primary beside a valid persistent backup makes
the restorer warn and read the backup, and the verified backup is written
back over the primary. -/
theorem slot_C2_witness :
    (RestoreSlotFromDisk false (corruptRecord sampleData)
        (buildOnDiskRecord sampleData) [defaultSlot]).warned = true ∧
    (RestoreSlotFromDisk false (corruptRecord sampleData)
        (buildOnDiskRecord sampleData) [defaultSlot]).primaryRewritten = true :=
  have h := (slot_C2 (corruptRecord sampleData) (buildOnDiskRecord sampleData)
    [defaultSlot] (checkRecord_corrupt sampleData)).2 (checkRecord_build sampleData)
  ⟨h.1, (h.2.1 rfl).1⟩

/-- C3: recompute_required_xmin publishes the minimum, in the wrap-aware
transaction-id precedence order, of effective_xmin over the in_use slots
holding a valid effective_xmin (INVALID when there is none), and likewise
for effective_catalog_xmin.  The minimum is taken under the hypothesis that
all valid values lie in a common half-circle window, which is what makes a
minimum of the cyclic precedence relation well defined. -/
theorem slot_C3 (slots : List ReplicationSlot) (B : Nat) (hB : B < XID_MOD)
    (hw : ∀ s ∈ slots, s.in_use = true →
      (s.effective_xmin ≠ InvalidTransactionId →
        XidInWindow B s.effective_xmin) ∧
      (s.effective_catalog_xmin ≠ InvalidTransactionId →
        XidInWindow B s.effective_catalog_xmin)) :
    IsWrapMinOf (ReplicationSlotsComputeRequiredXmin slots).1
        (xidValids (inUseEffectiveXmins slots)) ∧
    IsWrapMinOf (ReplicationSlotsComputeRequiredXmin slots).2
        (xidValids (inUseEffectiveCatalogXmins slots)) := by
  unfold ReplicationSlotsComputeRequiredXmin
  rw [computeRequiredXmin_eq slots InvalidTransactionId InvalidTransactionId]
  constructor
  · apply wrapMin_fold B hB
    intro e he hne
    obtain ⟨s, hs, hu, hex⟩ := inUseEffectiveXmins_mem slots e he
    subst hex
    exact (hw s hs hu).1 hne
  · apply wrapMin_fold B hB
    intro e he hne
    obtain ⟨s, hs, hu, hex⟩ := inUseEffectiveCatalogXmins_mem slots e he
    subst hex
    exact (hw s hs hu).2 hne

/-- C3 witness: a one-slot table with valid effective xmins 10 and 7, all
inside the window based at 0; the published pair is the wrap-aware minimum
of each list. -/
theorem slot_C3_witness :
    IsWrapMinOf (ReplicationSlotsComputeRequiredXmin sampleXminSlots).1
        (xidValids (inUseEffectiveXmins sampleXminSlots)) ∧
    IsWrapMinOf (ReplicationSlotsComputeRequiredXmin sampleXminSlots).2
        (xidValids (inUseEffectiveCatalogXmins sampleXminSlots)) :=
  slot_C3 sampleXminSlots 0 (by decide)
    (by
      intro s hs _
      simp only [sampleXminSlots, List.mem_singleton] at hs
      subst hs
      exact ⟨fun _ => ⟨by decide, by decide⟩, fun _ => ⟨by decide, by decide⟩⟩)

/-- C5 counterexample: create of a physical slot whose name collides with an
in_use physical slot reports DUPLICATE only as a warning and then acquires
the existing slot - afterwards the session does hold a current slot and the
colliding entry's active flag has changed to true, contradicting the claim
that the table is left unchanged and the session slotless. -/
theorem slot_C5_counterexample :
    (ReplicationSlotCreate (some [97]) ReplicationSlotPersistency.RS_PERSISTENT
        false InvalidOid 0 dupTestEnv).env.mySlot = some 0 ∧
    (ReplicationSlotCreate (some [97]) ReplicationSlotPersistency.RS_PERSISTENT
        false InvalidOid 0 dupTestEnv).env.slots ≠ dupTestEnv.slots ∧
    (ReplicationSlotCreate (some [97]) ReplicationSlotPersistency.RS_PERSISTENT
        false InvalidOid 0 dupTestEnv).warnings = [ErrCode.DUPLICATE] ∧
    (ReplicationSlotCreate (some [97]) ReplicationSlotPersistency.RS_PERSISTENT
        false InvalidOid 0 dupTestEnv).err = none := by
  refine ⟨rfl, by decide, rfl, rfl⟩

/-- C5 as amended: when create finds an in_use slot with the same name it
fails with DUPLICATE.  For a logical create (database_id not NONE) this is
an error: locks are released, every table entry is unchanged and the
session holds no current slot.  For a physical create it is only a warning,
after which create goes on to acquire the existing slot rather than
returning untouched: the colliding entry's active flag is set to true in
every case; if that entry was already active and is logical or disagrees on
is_dummy_standby, an IN_USE error is then raised and the session still
holds no current slot; otherwise - entry inactive, or active but physical
with matching is_dummy_standby (the latter with an extra IN_USE warning) -
the existing slot becomes the session's current slot. -/
theorem slot_C5 (env : SlotEnv) (name : Option (List Nat)) (i : Nat)
    (persistency : ReplicationSlotPersistency) (isDummyStandby : Bool)
    (databaseId : Oid) (lsn : XLogRecPtr)
    (hv : ReplicationSlotValidateName name = none)
    (hf : findNameIndex (name.getD []) env.slots = some i)
    (hmy : env.mySlot = none) :
    (databaseId ≠ InvalidOid →
      ReplicationSlotCreate name persistency isDummyStandby databaseId lsn env =
        { env := env, err := some ErrCode.DUPLICATE, warnings := [] }) ∧
    (databaseId = InvalidOid →
      (ReplicationSlotCreate name persistency isDummyStandby databaseId lsn
          env).warnings.head? = some ErrCode.DUPLICATE ∧
      ((ReplicationSlotCreate name persistency isDummyStandby databaseId lsn
          env).env.slots.getD i defaultSlot).active = true ∧
      ((env.slots.getD i defaultSlot).active = true →
        ((env.slots.getD i defaultSlot).data.database ≠ InvalidOid ∨
          isDummyStandby ≠ (env.slots.getD i defaultSlot).data.isDummyStandby) →
        (ReplicationSlotCreate name persistency isDummyStandby databaseId lsn
            env).err = some ErrCode.IN_USE ∧
        (ReplicationSlotCreate name persistency isDummyStandby databaseId lsn
            env).env.mySlot = none) ∧
      (((env.slots.getD i defaultSlot).active = false ∨
          ((env.slots.getD i defaultSlot).data.database = InvalidOid ∧
            isDummyStandby = (env.slots.getD i defaultSlot).data.isDummyStandby)) →
        (ReplicationSlotCreate name persistency isDummyStandby databaseId lsn
            env).err = none ∧
        (ReplicationSlotCreate name persistency isDummyStandby databaseId lsn
            env).env.mySlot = some i)) := by
  have hi : i < env.slots.length := findNameIndex_lt _ _ _ hf
  constructor
  · intro hdb
    simp only [ReplicationSlotCreate, hv, hf]
    rw [if_neg hdb]
  · intro hdb
    subst hdb
    have hC : ReplicationSlotCreate name persistency isDummyStandby InvalidOid
        lsn env =
        { env := (ReplicationSlotAcquire name isDummyStandby env).env,
          err := (ReplicationSlotAcquire name isDummyStandby env).err,
          warnings := ErrCode.DUPLICATE ::
            (ReplicationSlotAcquire name isDummyStandby env).warnings } := by
      simp only [ReplicationSlotCreate, hv, hf]
      simp
    rw [hC]
    by_cases hA : (env.slots.getD i defaultSlot).active = true
    · by_cases hI : (env.slots.getD i defaultSlot).data.database ≠ InvalidOid ∨
          isDummyStandby ≠ (env.slots.getD i defaultSlot).data.isDummyStandby
      · have hacq : ReplicationSlotAcquire name isDummyStandby env =
            { env := updateSlotAt env i fun s => { s with active := true },
              err := some ErrCode.IN_USE, warnings := [] } := by
          have hAE : (env.slots[i]?.getD defaultSlot).active = true := by
            simpa [List.getD] using hA
          have hIE : (env.slots[i]?.getD defaultSlot).data.database ≠ InvalidOid ∨
              isDummyStandby ≠
                (env.slots[i]?.getD defaultSlot).data.isDummyStandby := by
            simpa [List.getD] using hI
          simp only [ReplicationSlotAcquire, hv, hf, updateSlotAt,
            list_getD_set_self2 env.slots i hi]
          simp [hAE, hIE]
        rw [hacq]
        refine ⟨rfl, ?_, ?_, ?_⟩
        · simp only [updateSlotAt_slots, list_getD_set_self2 env.slots i hi]
        · intro _ _
          exact ⟨rfl, hmy⟩
        · intro hcompat
          exfalso
          rcases hcompat with h | ⟨hdb0, hdm⟩
          · rw [hA] at h
            exact Bool.noConfusion h
          · rcases hI with h1 | h1
            · exact h1 hdb0
            · exact h1 hdm
      · push_neg at hI
        have hacq : ReplicationSlotAcquire name isDummyStandby env =
            { env := { updateSlotAt env i (fun s => { s with active := true }) with
                       mySlot := some i },
              err := none, warnings := [ErrCode.IN_USE] } := by
          have hAE : (env.slots[i]?.getD defaultSlot).active = true := by
            simpa [List.getD] using hA
          have hdbE : (env.slots[i]?.getD defaultSlot).data.database = InvalidOid := by
            simpa [List.getD] using hI.1
          have hdmE : isDummyStandby =
              (env.slots[i]?.getD defaultSlot).data.isDummyStandby := by
            simpa [List.getD] using hI.2
          simp only [ReplicationSlotAcquire, hv, hf, updateSlotAt,
            list_getD_set_self2 env.slots i hi]
          simp [hAE, hdbE, hdmE]
        rw [hacq]
        refine ⟨rfl, ?_, ?_, ?_⟩
        · simp only [updateSlotAt_slots, list_getD_set_self2 env.slots i hi]
        · intro _ hbad
          exfalso
          rcases hbad with h1 | h1
          · exact h1 hI.1
          · exact h1 hI.2
        · intro _
          exact ⟨rfl, rfl⟩
    · have hA' : (env.slots.getD i defaultSlot).active = false := by
        simpa using hA
      by_cases hL : (env.slots.getD i defaultSlot).data.database ≠ InvalidOid
      · have hacq : ReplicationSlotAcquire name isDummyStandby env =
            { env := { updateSlotAt
                         (updateSlotAt env i fun s => { s with active := true }) i
                         (fun s =>
                           { s with
                             candidate_restart_lsn := InvalidXLogRecPtr,
                             candidate_restart_valid := InvalidXLogRecPtr,
                             candidate_xmin_lsn := InvalidXLogRecPtr,
                             candidate_catalog_xmin := InvalidTransactionId }) with
                       mySlot := some i },
              err := none, warnings := [] } := by
          have hAE : (env.slots[i]?.getD defaultSlot).active = false := by
            simpa [List.getD] using hA'
          have hLE : (env.slots[i]?.getD defaultSlot).data.database ≠ InvalidOid := by
            simpa [List.getD] using hL
          simp only [ReplicationSlotAcquire, hv, hf, updateSlotAt,
            list_getD_set_self2 env.slots i hi]
          simp [hAE, hLE]
        rw [hacq]
        refine ⟨rfl, ?_, ?_, ?_⟩
        · simp only [updateSlotAt_slots, list_set_set,
            list_getD_set_self2 env.slots i hi]
        · intro hAT _
          rw [hA'] at hAT
          exact Bool.noConfusion hAT
        · intro _
          exact ⟨rfl, rfl⟩
      · have hL' : (env.slots.getD i defaultSlot).data.database = InvalidOid :=
          not_not.mp hL
        have hacq : ReplicationSlotAcquire name isDummyStandby env =
            { env := { updateSlotAt env i (fun s => { s with active := true }) with
                       mySlot := some i },
              err := none, warnings := [] } := by
          have hAE : (env.slots[i]?.getD defaultSlot).active = false := by
            simpa [List.getD] using hA'
          have hLE : (env.slots[i]?.getD defaultSlot).data.database = InvalidOid := by
            simpa [List.getD] using hL'
          simp only [ReplicationSlotAcquire, hv, hf, updateSlotAt,
            list_getD_set_self2 env.slots i hi]
          simp [hAE, hLE]
        rw [hacq]
        refine ⟨rfl, ?_, ?_, ?_⟩
        · simp only [updateSlotAt_slots, list_getD_set_self2 env.slots i hi]
        · intro hAT _
          rw [hA'] at hAT
          exact Bool.noConfusion hAT
        · intro _
          exact ⟨rfl, rfl⟩

/-- C5 witness: the amended physical-duplicate behavior at a concrete
one-slot table whose colliding slot is inactive - DUPLICATE warned, the
entry's active flag set, the existing slot acquired as the session's
current slot. -/
theorem slot_C5_witness :
    (ReplicationSlotCreate (some [97]) ReplicationSlotPersistency.RS_PERSISTENT
        false InvalidOid 0 dupTestEnv).warnings.head? = some ErrCode.DUPLICATE ∧
    ((ReplicationSlotCreate (some [97]) ReplicationSlotPersistency.RS_PERSISTENT
        false InvalidOid 0 dupTestEnv).env.slots.getD 0 defaultSlot).active =
      true ∧
    (ReplicationSlotCreate (some [97]) ReplicationSlotPersistency.RS_PERSISTENT
        false InvalidOid 0 dupTestEnv).err = none ∧
    (ReplicationSlotCreate (some [97]) ReplicationSlotPersistency.RS_PERSISTENT
        false InvalidOid 0 dupTestEnv).env.mySlot = some 0 :=
  have h := (slot_C5 dupTestEnv (some [97]) 0
    ReplicationSlotPersistency.RS_PERSISTENT false InvalidOid 0 (by decide)
    (by decide) rfl).2 rfl
  ⟨h.1, h.2.1, (h.2.2.2 (Or.inl (by decide))).1,
    (h.2.2.2 (Or.inl (by decide))).2⟩

/-- C8: releasing a current, active, ephemeral slot drops it - afterwards
the entry has in_use = false and active = false, the session holds no
current slot, and find on the slot's (valid) name returns false, given that
no other in_use entry bears the name (invariant 1 of the spec). -/
theorem slot_C8 (serverMode : ServerMode) (env : SlotEnv) (i : Nat)
    (hm : env.mySlot = some i) (hi : i < env.slots.length)
    (hact : (env.slots.getD i defaultSlot).active = true)
    (heph : (env.slots.getD i defaultSlot).data.persistency =
      ReplicationSlotPersistency.RS_EPHEMERAL)
    (hvalid : ReplicationSlotValidateName
      (some (env.slots.getD i defaultSlot).data.name) = none)
    (huniq : ∀ j, j < env.slots.length → j ≠ i →
      ¬((env.slots.getD j defaultSlot).in_use = true ∧
        (env.slots.getD j defaultSlot).data.name =
          (env.slots.getD i defaultSlot).data.name)) :
    (ReplicationSlotRelease serverMode env).mySlot = none ∧
    ((ReplicationSlotRelease serverMode env).slots.getD i defaultSlot).in_use =
      false ∧
    ((ReplicationSlotRelease serverMode env).slots.getD i defaultSlot).active =
      false ∧
    (ReplicationSlotFind (some (env.slots.getD i defaultSlot).data.name)
        (ReplicationSlotRelease serverMode env)).1 = Except.ok false := by
  have hact2 : (env.slots[i]?.getD defaultSlot).active = true := by
    simpa [List.getD] using hact
  have hdropSlots : (ReplicationSlotDropAcquired serverMode env).slots =
      env.slots.set i
        { env.slots.getD i defaultSlot with active := false, in_use := false } := by
    simp only [ReplicationSlotDropAcquired, hm, updateSlotAt,
      envComputeRequiredLSN_slots, envComputeRequiredXmin_slots]
  have hrelMy : (ReplicationSlotRelease serverMode env).mySlot = none := by
    simp only [ReplicationSlotRelease, hm]
    split <;> rfl
  have hrelSlots : ∃ e : ReplicationSlot, e.in_use = false ∧ e.active = false ∧
      (ReplicationSlotRelease serverMode env).slots = env.slots.set i e := by
    simp only [ReplicationSlotRelease, hm]
    rw [if_neg (by simp [hact2])]
    rw [if_pos heph]
    split
    · simp only [envComputeRequiredXmin_slots, updateSlotAt_slots, hdropSlots,
        list_getD_set_self2 env.slots i hi, list_set_set]
      exact ⟨_, rfl, rfl, rfl⟩
    · simp only [hdropSlots]
      exact ⟨_, rfl, rfl, rfl⟩
  obtain ⟨e, heu, hea, hslots⟩ := hrelSlots
  refine ⟨hrelMy, ?_, ?_, ?_⟩
  · rw [hslots, list_getD_set_self2 env.slots i hi]
    exact heu
  · rw [hslots, list_getD_set_self2 env.slots i hi]
    exact hea
  · have hnone : findNameIndex
        ((some (env.slots.getD i defaultSlot).data.name).getD [])
        (ReplicationSlotRelease serverMode env).slots = none := by
      rw [hslots]
      apply findNameIndex_none_of_getD
      intro j hj
      rw [list_length_set] at hj
      by_cases hji : j = i
      · subst hji
        rw [list_getD_set_self2 env.slots j hj]
        intro hcontra
        have h1 := hcontra.1
        rw [heu] at h1
        exact absurd h1 (by simp)
      · rw [list_getD_set_ne2 env.slots i j (fun h => hji h.symm)]
        exact huniq j hj hji
    simp only [ReplicationSlotFind, hvalid, hnone]

/-- C8 witness: releasing the acquired ephemeral slot "e1" of a one-slot
environment empties the entry, detaches the session and makes find return
false. -/
theorem slot_C8_witness :
    (ReplicationSlotRelease ServerMode.PRIMARY_MODE ephTestEnv).mySlot = none ∧
    ((ReplicationSlotRelease ServerMode.PRIMARY_MODE ephTestEnv).slots.getD 0
        defaultSlot).in_use = false ∧
    ((ReplicationSlotRelease ServerMode.PRIMARY_MODE ephTestEnv).slots.getD 0
        defaultSlot).active = false ∧
    (ReplicationSlotFind (some (ephTestEnv.slots.getD 0 defaultSlot).data.name)
        (ReplicationSlotRelease ServerMode.PRIMARY_MODE ephTestEnv)).1 =
      Except.ok false :=
  slot_C8 ServerMode.PRIMARY_MODE ephTestEnv 0 rfl (by decide) (by decide)
    (by decide) (by decide)
    (by
      intro j hj hji
      have hj1 : j < 1 := hj
      exact absurd (by omega : j = 0) hji)
